import Mathlib

/-!
Verification development for the sprut message router.

Bytes are modelled as `Nat` values below 256; Go byte slices and strings
become `List Nat`; multi-byte integers use explicit big-endian byte lists;
unsigned 64-bit arithmetic is modelled with explicit `% 2^64`.
-/

namespace Sprut

/-! ### Protocol constants (pkg/protocol/types.go) -/

def PublicKeySize : Nat := 32
def ChallengeSize : Nat := 32
def TimestampSize : Nat := 8
def ServerIDSize : Nat := 32
def SignatureSize : Nat := 64
def ChannelBindingSize : Nat := 32

def MaxMessageSize : Nat := 65536
def MaxMsgIDLen : Nat := 256
def MaxErrorMsgLen : Nat := 1024

def TypeClientHello : Nat := 0x01
def TypeServerChallenge : Nat := 0x02
def TypeClientResponse : Nat := 0x03
def TypeAuthResult : Nat := 0x04

def AuthStatusOK : Nat := 0x00
def AuthStatusInvalidSig : Nat := 0x02
def AuthStatusReplay : Nat := 0x03

/-- ASCII bytes of the protocol-version literal "goro-auth-v1". -/
def ProtocolVersion : List Nat := [103, 111, 114, 111, 45, 97, 117, 116, 104, 45, 118, 49]

/-! ### Big-endian byte encoding (encoding/binary, big-endian) -/

/-- Big-endian encoding of `v` into `w` bytes (the low `8*w` bits of `v`). -/
def beBytes : Nat → Nat → List Nat
  | 0, _ => []
  | w + 1, v => beBytes w (v / 256) ++ [v % 256]

/-- Big-endian value of a byte list (`binary.BigEndian.UintNN`). -/
def beVal (bs : List Nat) : Nat := bs.foldl (fun acc b => acc * 256 + b) 0

theorem beBytes_length (w v : Nat) : (beBytes w v).length = w := by
  induction w generalizing v with
  | zero => rfl
  | succ n ih => simp [beBytes, ih]

theorem beVal_append_singleton (bs : List Nat) (b : Nat) :
    beVal (bs ++ [b]) = beVal bs * 256 + b := by
  simp [beVal, List.foldl_append]

theorem beVal_beBytes (w v : Nat) (h : v < 256 ^ w) : beVal (beBytes w v) = v := by
  induction w generalizing v with
  | zero =>
    interval_cases v
    rfl
  | succ n ih =>
    have hdiv : v / 256 < 256 ^ n := by
      rw [Nat.div_lt_iff_lt_mul (by norm_num)]
      calc v < 256 ^ (n + 1) := h
        _ = 256 ^ n * 256 := by ring
    rw [beBytes, beVal_append_singleton, ih _ hdiv]
    omega

/-! ### isValidHexPubKey (pkg/router/message.go) -/

/-- The per-character test of `isValidHexPubKey`:
`(c >= '0' && c <= '9') || (c >= 'a' && c <= 'f') || (c >= 'A' && c <= 'F')`. -/
def isHexDigitByte (c : Nat) : Bool :=
  (48 ≤ c && c ≤ 57) || (97 ≤ c && c ≤ 102) || (65 ≤ c && c ≤ 70)

/-- `isValidHexPubKey`: length is exactly `PublicKeySize*2` and every byte is
a hex digit. -/
def isValidHexPubKey (s : List Nat) : Bool :=
  if s.length ≠ PublicKeySize * 2 then false
  else s.all isHexDigitByte

/-- C1: isValidHexPubKey returns true iff the string's length is 64 and every
character is in [0-9a-fA-F]. -/
theorem isValidHexPubKey_iff (s : List Nat) :
    isValidHexPubKey s = true ↔
      s.length = 64 ∧
        ∀ c ∈ s, (48 ≤ c ∧ c ≤ 57) ∨ (97 ≤ c ∧ c ≤ 102) ∨ (65 ≤ c ∧ c ≤ 70) := by
  unfold isValidHexPubKey
  by_cases h : s.length = PublicKeySize * 2
  · simp only [h, ne_eq, not_true_eq_false, if_false, List.all_eq_true]
    constructor
    · intro hall
      refine ⟨by norm_num [PublicKeySize], fun c hc => ?_⟩
      have := hall c hc
      simp only [isHexDigitByte, Bool.or_eq_true, Bool.and_eq_true, decide_eq_true_eq] at this
      tauto
    · rintro ⟨-, hall⟩
      intro c hc
      have := hall c hc
      simp only [isHexDigitByte, Bool.or_eq_true, Bool.and_eq_true, decide_eq_true_eq]
      tauto
  · simp only [ne_eq, h, not_false_eq_true, if_true]
    constructor
    · intro hfalse
      exact absurd hfalse (by simp)
    · rintro ⟨h64, -⟩
      exact absurd h64 (by simpa [PublicKeySize] using h)

/-! ### BuildSignedDataTo (protocol codec) -/

/-- Size of the signing input:
`len(ProtocolVersion) + ChallengeSize + TimestampSize + ServerIDSize + PublicKeySize + ChannelBindingSize`. -/
def SignedDataSize : Nat :=
  ProtocolVersion.length + ChallengeSize + TimestampSize + ServerIDSize +
    PublicKeySize + ChannelBindingSize

/-- Go's `copy(buf[off:], src)`: overwrite `buf` starting at `off` with as much
of `src` as fits, leaving the rest of the buffer untouched. -/
def copyInto (buf : List Nat) (off : Nat) (src : List Nat) : List Nat :=
  buf.take off ++ src.take (buf.length - off) ++ buf.drop (off + src.length)

/-- The number of bytes `copy(buf[off:], src)` reports copied. -/
def copyLen (buf : List Nat) (off : Nat) (src : List Nat) : Nat :=
  min src.length (buf.length - off)

/-- `BuildSignedDataTo`: writes ProtocolVersion, challenge, big-endian
timestamp, serverID, clientPubKey and channelBinding into `buf` at the running
offset, and returns `buf[:offset]`. -/
def BuildSignedDataTo (buf : List Nat) (challenge : List Nat) (timestamp : Nat)
    (serverID : List Nat) (clientPubKey : List Nat) (channelBinding : List Nat) :
    List Nat :=
  let o1 := copyLen buf 0 ProtocolVersion
  let b1 := copyInto buf 0 ProtocolVersion
  let o2 := o1 + copyLen b1 o1 challenge
  let b2 := copyInto b1 o1 challenge
  let b3 := copyInto b2 o2 (beBytes 8 timestamp)
  let o3 := o2 + TimestampSize
  let o4 := o3 + copyLen b3 o3 serverID
  let b4 := copyInto b3 o3 serverID
  let o5 := o4 + copyLen b4 o4 clientPubKey
  let b5 := copyInto b4 o4 clientPubKey
  let o6 := o5 + copyLen b5 o5 channelBinding
  let b6 := copyInto b5 o5 channelBinding
  b6.take o6

theorem copyInto_length (buf src : List Nat) (off : Nat)
    (h : off + src.length ≤ buf.length) :
    (copyInto buf off src).length = buf.length := by
  simp only [copyInto, List.length_append, List.length_take, List.length_drop]
  omega

theorem copyInto_eq (buf src : List Nat) (off : Nat)
    (h : off + src.length ≤ buf.length) :
    copyInto buf off src = buf.take off ++ src ++ buf.drop (off + src.length) := by
  unfold copyInto
  congr 2
  exact List.take_of_length_le (by omega)

theorem copyLen_concat (pre post src : List Nat) (h : src.length ≤ post.length) :
    copyLen (pre ++ post) pre.length src = src.length := by
  simp only [copyLen, List.length_append]
  omega

theorem copyInto_concat (pre post src : List Nat) (h : src.length ≤ post.length) :
    copyInto (pre ++ post) pre.length src = pre ++ (src ++ post.drop src.length) := by
  rw [copyInto_eq _ _ _ (by simp only [List.length_append]; omega)]
  rw [List.take_left, List.drop_append_eq_append_drop,
    List.drop_eq_nil_of_le (Nat.le_add_right _ _)]
  simp [List.append_assoc, Nat.add_sub_cancel_left]

/-- C2: BuildSignedDataTo writes exactly
"goro-auth-v1" ++ Challenge(32) ++ Timestamp(8, big-endian) ++ ServerID(32) ++
ClientPubKey(32) ++ ChannelBinding(32) into the caller-supplied buffer, and the
returned slice has length exactly 148 = SignedDataSize. -/
theorem BuildSignedDataTo_spec (buf challenge serverID clientPubKey channelBinding : List Nat)
    (timestamp : Nat)
    (hbuf : SignedDataSize ≤ buf.length)
    (hch : challenge.length = ChallengeSize)
    (hsid : serverID.length = ServerIDSize)
    (hpk : clientPubKey.length = PublicKeySize)
    (hcb : channelBinding.length = ChannelBindingSize) :
    BuildSignedDataTo buf challenge timestamp serverID clientPubKey channelBinding =
      ProtocolVersion ++ (challenge ++ (beBytes 8 timestamp ++
        (serverID ++ (clientPubKey ++ channelBinding)))) ∧
    (BuildSignedDataTo buf challenge timestamp serverID clientPubKey channelBinding).length =
      148 := by
  have hPV : ProtocolVersion.length = 12 := rfl
  have hSDS : SignedDataSize = 148 := rfl
  rw [hSDS] at hbuf
  simp only [ChallengeSize] at hch
  simp only [ServerIDSize] at hsid
  simp only [PublicKeySize] at hpk
  simp only [ChannelBindingSize] at hcb
  have hts8 : (beBytes 8 timestamp).length = 8 := beBytes_length 8 timestamp
  -- step 1: copy the protocol version at offset 0
  have c1 : copyLen buf 0 ProtocolVersion = 12 := by
    simp only [copyLen, hPV]; omega
  have e1 : copyInto buf 0 ProtocolVersion = ProtocolVersion ++ buf.drop 12 := by
    rw [copyInto_eq _ _ _ (by omega)]
    simp [hPV]
  -- step 2: copy the challenge at offset 12
  have c2 : copyLen (ProtocolVersion ++ buf.drop 12) 12 challenge = 32 := by
    have h := copyLen_concat ProtocolVersion (buf.drop 12) challenge (by simp; omega)
    rwa [hPV, hch] at h
  have e2 : copyInto (ProtocolVersion ++ buf.drop 12) 12 challenge =
      ProtocolVersion ++ (challenge ++ buf.drop 44) := by
    have h := copyInto_concat ProtocolVersion (buf.drop 12) challenge (by simp; omega)
    rw [hPV, hch, List.drop_drop] at h
    exact h
  -- step 3: write the big-endian timestamp at offset 44
  have c3 : copyLen (ProtocolVersion ++ (challenge ++ buf.drop 44)) 44
      (beBytes 8 timestamp) = 8 := by
    have h := copyLen_concat (ProtocolVersion ++ challenge) (buf.drop 44)
      (beBytes 8 timestamp) (by simp [hts8]; omega)
    rw [List.length_append, hPV, hch, hts8, List.append_assoc] at h
    exact h
  have e3 : copyInto (ProtocolVersion ++ (challenge ++ buf.drop 44)) 44
      (beBytes 8 timestamp) =
      ProtocolVersion ++ (challenge ++ (beBytes 8 timestamp ++ buf.drop 52)) := by
    have h := copyInto_concat (ProtocolVersion ++ challenge) (buf.drop 44)
      (beBytes 8 timestamp) (by simp [hts8]; omega)
    rw [List.length_append, hPV, hch, hts8, List.drop_drop, List.append_assoc] at h
    rw [h]
    simp [List.append_assoc]
  -- step 4: copy the server id at offset 52
  have c4 : copyLen (ProtocolVersion ++ (challenge ++ (beBytes 8 timestamp ++ buf.drop 52)))
      52 serverID = 32 := by
    have h := copyLen_concat (ProtocolVersion ++ challenge ++ beBytes 8 timestamp)
      (buf.drop 52) serverID (by simp [hsid]; omega)
    rw [List.length_append, List.length_append, hPV, hch, hts8, hsid,
      List.append_assoc, List.append_assoc] at h
    exact h
  have e4 : copyInto (ProtocolVersion ++ (challenge ++ (beBytes 8 timestamp ++ buf.drop 52)))
      52 serverID =
      ProtocolVersion ++ (challenge ++ (beBytes 8 timestamp ++ (serverID ++ buf.drop 84))) := by
    have h := copyInto_concat (ProtocolVersion ++ challenge ++ beBytes 8 timestamp)
      (buf.drop 52) serverID (by simp [hsid]; omega)
    rw [List.length_append, List.length_append, hPV, hch, hts8, hsid, List.drop_drop,
      List.append_assoc, List.append_assoc] at h
    rw [h]
    simp [List.append_assoc]
  -- step 5: copy the client public key at offset 84
  have c5 : copyLen (ProtocolVersion ++ (challenge ++ (beBytes 8 timestamp ++
      (serverID ++ buf.drop 84)))) 84 clientPubKey = 32 := by
    have h := copyLen_concat (ProtocolVersion ++ challenge ++ beBytes 8 timestamp ++ serverID)
      (buf.drop 84) clientPubKey (by simp [hpk]; omega)
    rw [List.length_append, List.length_append, List.length_append,
      hPV, hch, hts8, hsid, hpk,
      List.append_assoc, List.append_assoc, List.append_assoc] at h
    exact h
  have e5 : copyInto (ProtocolVersion ++ (challenge ++ (beBytes 8 timestamp ++
      (serverID ++ buf.drop 84)))) 84 clientPubKey =
      ProtocolVersion ++ (challenge ++ (beBytes 8 timestamp ++
        (serverID ++ (clientPubKey ++ buf.drop 116)))) := by
    have h := copyInto_concat (ProtocolVersion ++ challenge ++ beBytes 8 timestamp ++ serverID)
      (buf.drop 84) clientPubKey (by simp [hpk]; omega)
    rw [List.length_append, List.length_append, List.length_append,
      hPV, hch, hts8, hsid, hpk, List.drop_drop,
      List.append_assoc, List.append_assoc, List.append_assoc] at h
    rw [h]
    simp [List.append_assoc]
  -- step 6: copy the channel binding at offset 116
  have c6 : copyLen (ProtocolVersion ++ (challenge ++ (beBytes 8 timestamp ++
      (serverID ++ (clientPubKey ++ buf.drop 116))))) 116 channelBinding = 32 := by
    have h := copyLen_concat
      (ProtocolVersion ++ challenge ++ beBytes 8 timestamp ++ serverID ++ clientPubKey)
      (buf.drop 116) channelBinding (by simp [hcb]; omega)
    rw [List.length_append, List.length_append, List.length_append, List.length_append,
      hPV, hch, hts8, hsid, hpk, hcb,
      List.append_assoc, List.append_assoc, List.append_assoc, List.append_assoc] at h
    exact h
  have e6 : copyInto (ProtocolVersion ++ (challenge ++ (beBytes 8 timestamp ++
      (serverID ++ (clientPubKey ++ buf.drop 116))))) 116 channelBinding =
      ProtocolVersion ++ (challenge ++ (beBytes 8 timestamp ++
        (serverID ++ (clientPubKey ++ (channelBinding ++ buf.drop 148))))) := by
    have h := copyInto_concat
      (ProtocolVersion ++ challenge ++ beBytes 8 timestamp ++ serverID ++ clientPubKey)
      (buf.drop 116) channelBinding (by simp [hcb]; omega)
    rw [List.length_append, List.length_append, List.length_append, List.length_append,
      hPV, hch, hts8, hsid, hpk, hcb, List.drop_drop,
      List.append_assoc, List.append_assoc, List.append_assoc, List.append_assoc] at h
    rw [h]
    simp [List.append_assoc]
  -- assemble
  have key : BuildSignedDataTo buf challenge timestamp serverID clientPubKey channelBinding =
      ProtocolVersion ++ (challenge ++ (beBytes 8 timestamp ++
        (serverID ++ (clientPubKey ++ channelBinding)))) := by
    simp only [BuildSignedDataTo, TimestampSize]
    rw [c1, e1, c2, e2]
    simp only [Nat.reduceAdd]
    rw [e3]
    rw [c4, e4]
    simp only [Nat.reduceAdd]
    rw [c5, e5]
    simp only [Nat.reduceAdd]
    rw [c6, e6]
    simp only [Nat.reduceAdd]
    have hsplit : ProtocolVersion ++ (challenge ++ (beBytes 8 timestamp ++
        (serverID ++ (clientPubKey ++ (channelBinding ++ buf.drop 148))))) =
        (ProtocolVersion ++ (challenge ++ (beBytes 8 timestamp ++
          (serverID ++ (clientPubKey ++ channelBinding))))) ++ buf.drop 148 := by
      simp [List.append_assoc]
    rw [hsplit]
    have hlen : (ProtocolVersion ++ (challenge ++ (beBytes 8 timestamp ++
        (serverID ++ (clientPubKey ++ channelBinding))))).length = 148 := by
      simp [hPV, hch, hts8, hsid, hpk, hcb]
    rw [show (148 : Nat) = (ProtocolVersion ++ (challenge ++ (beBytes 8 timestamp ++
        (serverID ++ (clientPubKey ++ channelBinding))))).length from hlen.symm]
    exact List.take_left _ _
  refine ⟨key, ?_⟩
  rw [key]
  simp [hPV, hch, hts8, hsid, hpk, hcb]

/-- C2 witness: BuildSignedDataTo at a concrete buffer and concrete fields. -/
theorem BuildSignedDataTo_spec_witness :
    BuildSignedDataTo (List.replicate 148 0) (List.replicate 32 1) 1706000000
        (List.replicate 32 2) (List.replicate 32 3) (List.replicate 32 4) =
      ProtocolVersion ++ (List.replicate 32 1 ++ (beBytes 8 1706000000 ++
        (List.replicate 32 2 ++ (List.replicate 32 3 ++ List.replicate 32 4)))) ∧
    (BuildSignedDataTo (List.replicate 148 0) (List.replicate 32 1) 1706000000
        (List.replicate 32 2) (List.replicate 32 3) (List.replicate 32 4)).length = 148 :=
  BuildSignedDataTo_spec (List.replicate 148 0) (List.replicate 32 1) (List.replicate 32 2)
    (List.replicate 32 3) (List.replicate 32 4) 1706000000
    (by simp [SignedDataSize, ChallengeSize, TimestampSize, ServerIDSize, PublicKeySize,
      ChannelBindingSize, ProtocolVersion])
    (by simp [ChallengeSize]) (by simp [ServerIDSize]) (by simp [PublicKeySize])
    (by simp [ChannelBindingSize])

/-! ### Authenticator timestamp check (authenticate, step 12) -/

/-- `2^64`, the modulus of Go's `uint64` arithmetic. -/
def U64 : Nat := 2 ^ 64

/-- Outcome of the two timestamp comparisons in `authenticate`. -/
inductive TsCheck where
  | future
  | expired
  | ok
deriving DecidableEq, Repr

/-- The replay-protection check of `authenticate`:
`if timestamp > now+60 { future }; if now-timestamp > ttl { expired }`,
with both `now+60` and `now-timestamp` computed in unsigned 64-bit
arithmetic (`now - timestamp` wraps modulo `2^64` when `timestamp > now`). -/
def checkTimestamp (timestamp now ttlSeconds : Nat) : TsCheck :=
  if timestamp > (now + 60) % U64 then .future
  else if (now + U64 - timestamp) % U64 > ttlSeconds then .expired
  else .ok

/-- C3 counterexample: with `now = 1000` and `ChallengeTTL = 30 s`, a challenge
timestamp of `now + 60` is NOT accepted: the unsigned subtraction
`now - timestamp` wraps to `2^64 - 60`, which exceeds the TTL, so the check
rejects it as expired. -/
theorem checkTimestamp_plus60_counterexample :
    checkTimestamp (1000 + 60) 1000 30 ≠ TsCheck.ok ∧
    checkTimestamp (1000 + 60) 1000 30 = TsCheck.expired := by
  constructor
  · decide
  · decide

/-- C3 amended: `timestamp = now + 61` is rejected as future, while
`timestamp = now + 60` passes the future check but is rejected as expired
(`now - timestamp` underflows modulo `2^64` to `2^64 - 60 > ChallengeTTL`),
for every TTL below `2^64 - 60`; so neither is accepted. -/
theorem checkTimestamp_boundary (now ttl : Nat) (h1 : now + 61 < U64)
    (h2 : ttl < U64 - 60) :
    checkTimestamp (now + 60) now ttl = TsCheck.expired ∧
    checkTimestamp (now + 61) now ttl = TsCheck.future := by
  have hU : U64 = 2 ^ 64 := rfl
  have hm : (now + 60) % U64 = now + 60 := Nat.mod_eq_of_lt (by omega)
  have hw : (now + U64 - (now + 60)) % U64 = U64 - 60 := by
    have h60 : now + U64 - (now + 60) = U64 - 60 := by omega
    rw [h60]
    exact Nat.mod_eq_of_lt (by omega)
  constructor
  · unfold checkTimestamp
    rw [hm, hw]
    rw [if_neg (by omega), if_pos (by omega)]
  · unfold checkTimestamp
    rw [hm]
    rw [if_pos (by omega)]

/-- C3 witness for the amended claim, at `now = 1000`, `TTL = 30 s`. -/
theorem checkTimestamp_boundary_witness :
    checkTimestamp (1000 + 60) 1000 30 = TsCheck.expired ∧
    checkTimestamp (1000 + 61) 1000 30 = TsCheck.future :=
  checkTimestamp_boundary 1000 30 (by norm_num [U64]) (by norm_num [U64])

/-! ### authenticate (router authenticator) -/

/-- Outcome of a run of `authenticate`: the returned error (if any) and the
frames written to the connection, in order. -/
structure AuthRun where
  result : Except String Unit
  writes : List (List Nat)
deriving Repr

/-- Shallow embedding of `authenticate`. `input` is the byte stream read from
the connection; the freshly generated challenge, the two clock readings
(`timestamp` at step 4, `now` at step 12), the pre-written server id, the TLS
channel binding and the ed25519 verifier are parameters. -/
def authenticate (verify : List Nat → List Nat → List Nat → Bool)
    (input : List Nat) (challenge : List Nat) (timestamp now : Nat)
    (serverID channelBinding : List Nat) (ttlSeconds : Nat) : AuthRun :=
  match input with
  | [] => ⟨.error "read hello type", []⟩
  | t1 :: rest1 =>
    if t1 ≠ TypeClientHello then ⟨.error "unexpected message type", []⟩
    else if rest1.length < PublicKeySize then ⟨.error "read pubkey", []⟩
    else
      let pubKey := rest1.take PublicKeySize
      let rest2 := rest1.drop PublicKeySize
      let challengeMsg :=
        [TypeServerChallenge] ++ challenge ++ beBytes 8 timestamp ++ serverID
      match rest2 with
      | [] => ⟨.error "read response type", [challengeMsg]⟩
      | t2 :: rest3 =>
        if t2 ≠ TypeClientResponse then ⟨.error "unexpected message type", [challengeMsg]⟩
        else if rest3.length < SignatureSize then ⟨.error "read signature", [challengeMsg]⟩
        else
          let signature := rest3.take SignatureSize
          let signedData := BuildSignedDataTo (List.replicate SignedDataSize 0)
            challenge timestamp serverID pubKey channelBinding
          if ¬ verify pubKey signedData signature then
            ⟨.error "invalid signature", [challengeMsg]⟩
          else
            match checkTimestamp timestamp now ttlSeconds with
            | .future => ⟨.error "timestamp in future", [challengeMsg]⟩
            | .expired => ⟨.error "challenge expired", [challengeMsg]⟩
            | .ok => ⟨.ok (), [challengeMsg, [TypeAuthResult, AuthStatusOK]]⟩

/-- C4 counterexample: a concrete run that fails signature verification writes
only the ServerChallenge frame — no AuthResult(InvalidSig) frame appears in
the write trace. -/
theorem authenticate_invalidSig_counterexample :
    (authenticate (fun _ _ _ => false)
        ([1] ++ List.replicate 32 5 ++ [3] ++ List.replicate 64 6)
        (List.replicate 32 7) 1000 1000 (List.replicate 32 8) (List.replicate 32 9)
        30).result = Except.error "invalid signature" ∧
    ∀ w ∈ (authenticate (fun _ _ _ => false)
        ([1] ++ List.replicate 32 5 ++ [3] ++ List.replicate 64 6)
        (List.replicate 32 7) 1000 1000 (List.replicate 32 8) (List.replicate 32 9)
        30).writes, w.take 2 ≠ [TypeAuthResult, AuthStatusInvalidSig] := by
  constructor
  · rfl
  · decide

/-- C4 amended: whenever signature verification fails, `authenticate` returns
the "invalid signature" error having written exactly one frame — the
ServerChallenge — and in particular no AuthResult frame of any status. -/
theorem authenticate_invalidSig_amended
    (verify : List Nat → List Nat → List Nat → Bool)
    (pubKey sig challenge serverID channelBinding : List Nat)
    (timestamp now ttlSeconds : Nat)
    (hpk : pubKey.length = PublicKeySize) (hsig : sig.length = SignatureSize)
    (hv : verify pubKey
        (BuildSignedDataTo (List.replicate SignedDataSize 0) challenge timestamp
          serverID pubKey channelBinding) sig = false) :
    authenticate verify ([TypeClientHello] ++ pubKey ++ [TypeClientResponse] ++ sig)
        challenge timestamp now serverID channelBinding ttlSeconds =
      ⟨.error "invalid signature",
        [[TypeServerChallenge] ++ challenge ++ beBytes 8 timestamp ++ serverID]⟩ ∧
    ∀ w ∈ (authenticate verify ([TypeClientHello] ++ pubKey ++ [TypeClientResponse] ++ sig)
        challenge timestamp now serverID channelBinding ttlSeconds).writes,
      w.take 1 ≠ [TypeAuthResult] := by
  have hinput : [TypeClientHello] ++ pubKey ++ [TypeClientResponse] ++ sig =
      TypeClientHello :: (pubKey ++ (TypeClientResponse :: sig)) := by
    simp
  have htake : (pubKey ++ (TypeClientResponse :: sig)).take PublicKeySize = pubKey :=
    List.take_left' hpk
  have hdrop : (pubKey ++ (TypeClientResponse :: sig)).drop PublicKeySize =
      TypeClientResponse :: sig :=
    List.drop_left' hpk
  have hkey : authenticate verify ([TypeClientHello] ++ pubKey ++ [TypeClientResponse] ++ sig)
      challenge timestamp now serverID channelBinding ttlSeconds =
      ⟨.error "invalid signature",
        [[TypeServerChallenge] ++ challenge ++ beBytes 8 timestamp ++ serverID]⟩ := by
    rw [hinput]
    simp only [authenticate, htake, hdrop]
    rw [if_neg (by simp)]
    rw [if_neg (show ¬ (pubKey ++ (TypeClientResponse :: sig)).length < PublicKeySize by
      simp only [List.length_append, List.length_cons, hpk]; omega)]
    rw [if_neg (by simp)]
    rw [if_neg (show ¬ sig.length < SignatureSize by rw [hsig]; exact Nat.lt_irrefl _)]
    rw [List.take_of_length_le (le_of_eq hsig)]
    rw [if_pos (by simp [hv])]
  refine ⟨hkey, ?_⟩
  rw [hkey]
  intro w hw
  simp only [List.mem_singleton] at hw
  subst hw
  simp [TypeServerChallenge, TypeAuthResult]

/-- C4 witness for the amended claim, at a concrete failing run. -/
theorem authenticate_invalidSig_amended_witness :
    authenticate (fun _ _ _ => false)
        ([TypeClientHello] ++ List.replicate 32 5 ++ [TypeClientResponse] ++
          List.replicate 64 6)
        (List.replicate 32 7) 1000 1000 (List.replicate 32 8) (List.replicate 32 9) 30 =
      ⟨.error "invalid signature",
        [[TypeServerChallenge] ++ List.replicate 32 7 ++ beBytes 8 1000 ++
          List.replicate 32 8]⟩ :=
  (authenticate_invalidSig_amended (fun _ _ _ => false) (List.replicate 32 5)
    (List.replicate 64 6) (List.replicate 32 7) (List.replicate 32 8)
    (List.replicate 32 9) 1000 1000 30
    (by simp [PublicKeySize]) (by simp [SignatureSize]) rfl).1

/-! ### handleMessage (pkg/router/message.go) -/

/-- `minMessageSize`: To (64 hex chars) + MsgIDLen (2 bytes) = 66 bytes. -/
def minMessageSize : Nat := PublicKeySize * 2 + 2

/-- The fields handleMessage extracts from a client frame. -/
structure ParsedMessage where
  To : List Nat
  msgID : List Nat
  payload : List Nat
deriving Repr

/-- Shallow embedding of `handleMessage`'s read-and-parse path. `stream` is
the byte sequence available on the connection and `bufLen` the pooled
buffer's size. Returns the outcome together with the number of bytes
consumed from the connection. -/
def handleMessage (stream : List Nat) (bufLen maxMessageSize : Nat) :
    Except String ParsedMessage × Nat :=
  if stream.length < 4 then (.error "read length", stream.length)
  else
    let totalLen := beVal (stream.take 4)
    if totalLen > maxMessageSize then (.error "message too large", 4)
    else if totalLen < minMessageSize then (.error "message too small", 4)
    else if totalLen > bufLen then (.error "message too large for buffer", 4)
    else if (stream.drop 4).length < totalLen then (.error "read message body", stream.length)
    else
      let buf := (stream.drop 4).take totalLen
      let toHex := buf.take (PublicKeySize * 2)
      if ¬ isValidHexPubKey toHex then (.error "invalid recipient pubkey format", 4 + totalLen)
      else
        let msgIDLen := beVal ((buf.drop (PublicKeySize * 2)).take 2)
        if msgIDLen > MaxMsgIDLen then (.error "msgID too long", 4 + totalLen)
        else
          let msgIDStart := PublicKeySize * 2 + 2
          let msgIDEnd := msgIDStart + msgIDLen
          if msgIDEnd > totalLen then (.error "invalid message structure", 4 + totalLen)
          else
            (.ok ⟨toHex, (buf.drop msgIDStart).take msgIDLen, buf.drop msgIDEnd⟩, 4 + totalLen)

theorem isValidHexPubKey_length (s : List Nat) (h : isValidHexPubKey s = true) :
    s.length = 64 := by
  unfold isValidHexPubKey at h
  by_cases hl : s.length = PublicKeySize * 2
  · simpa [PublicKeySize] using hl
  · simp [hl] at h

/-- C5: with maxMessageSize = 65536 and pooled buffers of that size,
handleMessage (i) parses a frame of TotalLen = 66 with a valid hex To,
MsgIDLen = 0 and empty payload; (ii) parses TotalLen = 65536 with valid
content; and (iii) rejects TotalLen = 65537 having consumed only the 4
length bytes, no body bytes. -/
theorem handleMessage_boundaries :
    (∀ toHex : List Nat, isValidHexPubKey toHex = true →
      handleMessage (beBytes 4 66 ++ (toHex ++ [0, 0])) 65536 65536 =
        (.ok ⟨toHex, [], []⟩, 70)) ∧
    (∀ toHex payload : List Nat, isValidHexPubKey toHex = true → payload.length = 65470 →
      handleMessage (beBytes 4 65536 ++ (toHex ++ ([0, 0] ++ payload))) 65536 65536 =
        (.ok ⟨toHex, [], payload⟩, 65540)) ∧
    (∀ rest : List Nat, handleMessage (beBytes 4 65537 ++ rest) 65536 65536 =
      (.error "message too large", 4)) := by
  refine ⟨?_, ?_, ?_⟩
  · intro toHex hvalid
    have hto : toHex.length = 64 := isValidHexPubKey_length toHex hvalid
    have hXlen : (toHex ++ [0, 0]).length = 66 := by simp [hto]
    have hslen : (beBytes 4 66 ++ (toHex ++ [0, 0])).length = 70 := by
      simp [beBytes_length, hto]
    have htake4 : List.take 4 (beBytes 4 66 ++ (toHex ++ [0, 0])) = beBytes 4 66 :=
      List.take_left' (beBytes_length 4 66)
    have hdrop4 : List.drop 4 (beBytes 4 66 ++ (toHex ++ [0, 0])) = toHex ++ [0, 0] :=
      List.drop_left' (beBytes_length 4 66)
    have hbe : beVal (beBytes 4 66) = 66 := by decide
    have hbuf : List.take 66 (toHex ++ [0, 0]) = toHex ++ [0, 0] :=
      List.take_of_length_le (le_of_eq hXlen)
    have htk : List.take 64 (toHex ++ [0, 0]) = toHex := List.take_left' hto
    have hdp : List.drop 64 (toHex ++ [0, 0]) = [0, 0] := List.drop_left' hto
    have hbe0 : beVal [0, 0] = 0 := rfl
    have hd66 : List.drop 66 (toHex ++ [0, 0]) = [] :=
      List.drop_eq_nil_of_le (le_of_eq hXlen)
    simp only [handleMessage, minMessageSize, PublicKeySize, MaxMsgIDLen,
      Nat.reduceMul, Nat.reduceAdd]
    norm_num [htake4, hdrop4, hslen, hbe, hXlen, hbuf, htk, hdp, hbe0, hd66, hvalid]
  · intro toHex payload hvalid hp
    have hto : toHex.length = 64 := isValidHexPubKey_length toHex hvalid
    have htake4 : List.take 4 (beBytes 4 65536 ++ (toHex ++ 0 :: 0 :: payload)) =
        beBytes 4 65536 := List.take_left' (beBytes_length 4 65536)
    have hdrop4 : List.drop 4 (beBytes 4 65536 ++ (toHex ++ 0 :: 0 :: payload)) =
        toHex ++ 0 :: 0 :: payload := List.drop_left' (beBytes_length 4 65536)
    have hbe : beVal (beBytes 4 65536) = 65536 := by decide
    have hbuf : List.take 65536 (toHex ++ 0 :: 0 :: payload) =
        toHex ++ 0 :: 0 :: payload :=
      List.take_of_length_le (by simp [hto, hp])
    have htk : List.take 64 (toHex ++ 0 :: 0 :: payload) = toHex := List.take_left' hto
    have hdp : List.drop 64 (toHex ++ 0 :: 0 :: payload) = 0 :: 0 :: payload :=
      List.drop_left' hto
    have htk2 : List.take 2 (0 :: 0 :: payload) = [0, 0] := rfl
    have hbe0 : beVal [0, 0] = 0 := rfl
    have hd66 : List.drop 66 (toHex ++ 0 :: 0 :: payload) = payload := by
      have h2 : List.drop 2 (List.drop 64 (toHex ++ 0 :: 0 :: payload)) =
          List.drop 66 (toHex ++ 0 :: 0 :: payload) := by
        rw [List.drop_drop]
      rw [← h2, hdp]
      rfl
    simp only [handleMessage, minMessageSize, PublicKeySize, MaxMsgIDLen,
      Nat.reduceMul, Nat.reduceAdd]
    norm_num [htake4, hdrop4, hbe, hbuf, htk, hdp, htk2, hbe0, hd66, hvalid,
      beBytes_length, hto, hp]
  · intro rest
    have hc : ¬ ((4 : Nat) + rest.length < 4) := by omega
    have htake4 : List.take 4 (beBytes 4 65537 ++ rest) = beBytes 4 65537 :=
      List.take_left' (beBytes_length 4 65537)
    have hbe : beVal (beBytes 4 65537) = 65537 := by decide
    simp only [handleMessage, minMessageSize, PublicKeySize, MaxMsgIDLen,
      Nat.reduceMul, Nat.reduceAdd]
    norm_num [htake4, hbe, beBytes_length, eq_false hc]

set_option maxRecDepth 4000 in
/-- C5 witness at concrete frames: an all-zero-digit To and an all-seven
payload of 65470 bytes. -/
theorem handleMessage_boundaries_witness :
    handleMessage (beBytes 4 66 ++ (List.replicate 64 48 ++ [0, 0])) 65536 65536 =
      (.ok ⟨List.replicate 64 48, [], []⟩, 70) ∧
    handleMessage (beBytes 4 65536 ++ (List.replicate 64 48 ++
        ([0, 0] ++ List.replicate 65470 55))) 65536 65536 =
      (.ok ⟨List.replicate 64 48, [], List.replicate 65470 55⟩, 65540) ∧
    handleMessage (beBytes 4 65537 ++ []) 65536 65536 =
      (.error "message too large", 4) :=
  ⟨handleMessage_boundaries.1 (List.replicate 64 48) (by decide),
   handleMessage_boundaries.2.1 (List.replicate 64 48) (List.replicate 65470 55)
     (by decide) (List.length_replicate _ _),
   handleMessage_boundaries.2.2 []⟩

/-! ### Protocol frame codecs (pkg/protocol auth.go / message types) -/

structure ClientHello where
  pubKey : List Nat
deriving Repr, DecidableEq

/-- `ClientHello.Encode`: type tag then the 32-byte public key. -/
def ClientHello.encode (m : ClientHello) : List Nat :=
  [TypeClientHello] ++ m.pubKey

/-- `DecodeClientHello` (reads after the type byte). -/
def DecodeClientHello (input : List Nat) : Except String ClientHello :=
  if input.length < PublicKeySize then .error "read pubkey"
  else .ok ⟨input.take PublicKeySize⟩

structure ServerChallenge where
  challenge : List Nat
  timestamp : Nat
  serverID : List Nat
deriving Repr, DecidableEq

/-- `ServerChallenge.Encode`: tag, challenge, big-endian timestamp, server id. -/
def ServerChallenge.encode (m : ServerChallenge) : List Nat :=
  [TypeServerChallenge] ++ (m.challenge ++ (beBytes 8 m.timestamp ++ m.serverID))

/-- `DecodeServerChallenge` (reads after the type byte). -/
def DecodeServerChallenge (input : List Nat) : Except String ServerChallenge :=
  if input.length < ChallengeSize then .error "read challenge"
  else
    let challenge := input.take ChallengeSize
    let r1 := input.drop ChallengeSize
    if r1.length < TimestampSize then .error "read timestamp"
    else
      let ts := beVal (r1.take TimestampSize)
      let r2 := r1.drop TimestampSize
      if r2.length < ServerIDSize then .error "read server_id"
      else .ok ⟨challenge, ts, r2.take ServerIDSize⟩

structure ClientResponse where
  signature : List Nat
deriving Repr, DecidableEq

/-- `ClientResponse.Encode`: tag then the 64-byte signature. -/
def ClientResponse.encode (m : ClientResponse) : List Nat :=
  [TypeClientResponse] ++ m.signature

/-- `DecodeClientResponse` (reads after the type byte). -/
def DecodeClientResponse (input : List Nat) : Except String ClientResponse :=
  if input.length < SignatureSize then .error "read signature"
  else .ok ⟨input.take SignatureSize⟩

structure AuthResult where
  status : Nat
  errorMsg : List Nat
deriving Repr, DecidableEq

/-- `AuthResult.Encode`: tag, status; when status ≠ OK also a 2-byte length
and the error message truncated to `MaxErrorMsgLen`. -/
def AuthResult.encode (m : AuthResult) : List Nat :=
  [TypeAuthResult] ++ ([m.status] ++
    (if m.status ≠ AuthStatusOK then
      let errBytes := if m.errorMsg.length > MaxErrorMsgLen
        then m.errorMsg.take MaxErrorMsgLen else m.errorMsg
      beBytes 2 errBytes.length ++ errBytes
    else []))

/-- `DecodeAuthResult` (reads after the type byte). -/
def DecodeAuthResult (input : List Nat) : Except String AuthResult :=
  match input with
  | [] => .error "read status"
  | status :: rest =>
    if status ≠ AuthStatusOK then
      if rest.length < 2 then .error "read error len"
      else
        let errLen := beVal (rest.take 2)
        if errLen > MaxErrorMsgLen then .error "error message too long"
        else if (rest.drop 2).length < errLen then .error "read error msg"
        else .ok ⟨status, (rest.drop 2).take errLen⟩
    else .ok ⟨status, []⟩

structure ClientMessage where
  To : List Nat
  msgID : List Nat
  payload : List Nat
deriving Repr, DecidableEq

/-- `ClientMessage.Encode`: 4-byte total length, To, 2-byte msg-id length,
msg id, payload; fails on invalid To length, oversize msg id or oversize
total. -/
def ClientMessage.encode (m : ClientMessage) : Except String (List Nat) :=
  if m.To.length ≠ PublicKeySize * 2 then .error "invalid to length"
  else if m.msgID.length > MaxMsgIDLen then .error "msg_id too long"
  else
    let totalLen := PublicKeySize * 2 + 2 + m.msgID.length + m.payload.length
    if totalLen > MaxMessageSize then .error "message too large"
    else .ok (beBytes 4 totalLen ++
      (m.To ++ (beBytes 2 m.msgID.length ++ (m.msgID ++ m.payload))))

/-- `DecodeClientMessage`. -/
def DecodeClientMessage (input : List Nat) : Except String ClientMessage :=
  if input.length < 4 then .error "read total len"
  else
    let totalLen := beVal (input.take 4)
    if totalLen > MaxMessageSize then .error "message too large"
    else if (input.drop 4).length < totalLen then .error "read message data"
    else
      let data := (input.drop 4).take totalLen
      if data.length < PublicKeySize * 2 + 2 then .error "message too short"
      else
        let To := data.take (PublicKeySize * 2)
        let d1 := data.drop (PublicKeySize * 2)
        let msgIDLen := beVal (d1.take 2)
        let d2 := d1.drop 2
        if msgIDLen > d2.length then .error "invalid msg_id length"
        else .ok ⟨To, d2.take msgIDLen, d2.drop msgIDLen⟩

structure ServerMessage where
  data : List Nat
deriving Repr, DecidableEq

/-- `ServerMessage.Encode`: 4-byte length then the opaque payload. -/
def ServerMessage.encode (m : ServerMessage) : Except String (List Nat) :=
  if m.data.length > MaxMessageSize then .error "message too large"
  else .ok (beBytes 4 m.data.length ++ m.data)

/-- `DecodeServerMessage`. -/
def DecodeServerMessage (input : List Nat) : Except String ServerMessage :=
  if input.length < 4 then .error "read total len"
  else
    let totalLen := beVal (input.take 4)
    if totalLen > MaxMessageSize then .error "message too large"
    else if (input.drop 4).length < totalLen then .error "read data"
    else .ok ⟨(input.drop 4).take totalLen⟩

theorem roundtrip_clientHello (pk : List Nat) (h : pk.length = PublicKeySize) :
    DecodeClientHello ((ClientHello.encode ⟨pk⟩).drop 1) = .ok ⟨pk⟩ := by
  have htk : List.take PublicKeySize pk = pk := List.take_of_length_le (le_of_eq h)
  simp [ClientHello.encode, DecodeClientHello, h, htk]

theorem roundtrip_clientResponse (sig : List Nat) (h : sig.length = SignatureSize) :
    DecodeClientResponse ((ClientResponse.encode ⟨sig⟩).drop 1) = .ok ⟨sig⟩ := by
  have htk : List.take SignatureSize sig = sig := List.take_of_length_le (le_of_eq h)
  simp [ClientResponse.encode, DecodeClientResponse, h, htk]

theorem roundtrip_serverChallenge (ch sid : List Nat) (ts : Nat)
    (hch : ch.length = ChallengeSize) (hsid : sid.length = ServerIDSize)
    (hts : ts < 2 ^ 64) :
    DecodeServerChallenge ((ServerChallenge.encode ⟨ch, ts, sid⟩).drop 1) =
      .ok ⟨ch, ts, sid⟩ := by
  have h1 : List.take ChallengeSize (ch ++ (beBytes 8 ts ++ sid)) = ch :=
    List.take_left' hch
  have h2 : List.drop ChallengeSize (ch ++ (beBytes 8 ts ++ sid)) =
      beBytes 8 ts ++ sid := List.drop_left' hch
  have h3 : List.take TimestampSize (beBytes 8 ts ++ sid) = beBytes 8 ts :=
    List.take_left' (by rw [beBytes_length]; rfl)
  have h4 : List.drop TimestampSize (beBytes 8 ts ++ sid) = sid :=
    List.drop_left' (by rw [beBytes_length]; rfl)
  have h5 : beVal (beBytes 8 ts) = ts :=
    beVal_beBytes 8 ts (by rw [show (256 : Nat) ^ 8 = 2 ^ 64 by norm_num]; exact hts)
  have h6 : List.take ServerIDSize sid = sid := List.take_of_length_le (le_of_eq hsid)
  simp [ServerChallenge.encode, DecodeServerChallenge, h1, h2, h3, h4, h5, h6,
    hch, hsid, beBytes_length, ChallengeSize, TimestampSize, ServerIDSize]

theorem authResult_decode_encode (s : Nat) (msg : List Nat) :
    DecodeAuthResult ((AuthResult.encode ⟨s, msg⟩).drop 1) =
      .ok ⟨s, if s = AuthStatusOK then [] else msg.take MaxErrorMsgLen⟩ := by
  by_cases hs : s = AuthStatusOK
  · simp [AuthResult.encode, DecodeAuthResult, hs, AuthStatusOK]
  · by_cases hlen : msg.length > MaxErrorMsgLen
    · have hlen1024 : 1024 < msg.length := by simpa [MaxErrorMsgLen] using hlen
      have htl : (msg.take 1024).length = 1024 := by
        rw [List.length_take]
        omega
      have hbe2 : beVal (beBytes 2 1024) = 1024 := by decide
      have htk2 : List.take 2 (beBytes 2 1024 ++ msg.take 1024) =
          beBytes 2 1024 := List.take_left' (beBytes_length 2 _)
      have hdp2 : List.drop 2 (beBytes 2 1024 ++ msg.take 1024) =
          msg.take 1024 := List.drop_left' (beBytes_length 2 _)
      have htt : List.take 1024 (msg.take 1024) =
          msg.take 1024 := List.take_of_length_le (le_of_eq htl)
      simp [AuthResult.encode, DecodeAuthResult, hs, hlen1024, htl, hbe2, htk2, hdp2, htt,
        beBytes_length, MaxErrorMsgLen]
    · have hle : msg.length ≤ MaxErrorMsgLen := by omega
      have hbe2 : beVal (beBytes 2 msg.length) = msg.length :=
        beVal_beBytes 2 msg.length (by norm_num [MaxErrorMsgLen] at hle ⊢; omega)
      have htk2 : List.take 2 (beBytes 2 msg.length ++ msg) = beBytes 2 msg.length :=
        List.take_left' (beBytes_length 2 _)
      have hdp2 : List.drop 2 (beBytes 2 msg.length ++ msg) = msg :=
        List.drop_left' (beBytes_length 2 _)
      have htkm : List.take MaxErrorMsgLen msg = msg := List.take_of_length_le hle
      simp [AuthResult.encode, DecodeAuthResult, hs, hlen, hbe2, htk2, hdp2, htkm,
        beBytes_length]

theorem roundtrip_serverMessage (d : List Nat) (h : d.length ≤ MaxMessageSize) :
    ServerMessage.encode ⟨d⟩ = .ok (beBytes 4 d.length ++ d) ∧
    DecodeServerMessage (beBytes 4 d.length ++ d) = .ok ⟨d⟩ := by
  have henc : ServerMessage.encode ⟨d⟩ = .ok (beBytes 4 d.length ++ d) := by
    simp only [ServerMessage.encode]
    rw [if_neg (by omega)]
  have htk : List.take 4 (beBytes 4 d.length ++ d) = beBytes 4 d.length :=
    List.take_left' (beBytes_length 4 _)
  have hdp : List.drop 4 (beBytes 4 d.length ++ d) = d :=
    List.drop_left' (beBytes_length 4 _)
  have hbe : beVal (beBytes 4 d.length) = d.length :=
    beVal_beBytes 4 _ (by
      rw [show (256 : Nat) ^ 4 = 4294967296 by norm_num]
      simp only [MaxMessageSize] at h
      omega)
  have hc1 : ((beBytes 4 d.length ++ d).length < 4) = False :=
    eq_false (by simp only [List.length_append, beBytes_length]; omega)
  have hc2 : (MaxMessageSize < d.length) = False := eq_false (by omega)
  refine ⟨henc, ?_⟩
  simp [DecodeServerMessage, htk, hdp, hbe, hc1, hc2]
  simp only [beBytes_length]
  omega

theorem roundtrip_clientMessage (T I P : List Nat)
    (hT : T.length = PublicKeySize * 2) (hI : I.length ≤ MaxMsgIDLen)
    (htot : PublicKeySize * 2 + 2 + I.length + P.length ≤ MaxMessageSize) :
    ClientMessage.encode ⟨T, I, P⟩ =
      .ok (beBytes 4 (66 + I.length + P.length) ++
        (T ++ (beBytes 2 I.length ++ (I ++ P)))) ∧
    DecodeClientMessage (beBytes 4 (66 + I.length + P.length) ++
        (T ++ (beBytes 2 I.length ++ (I ++ P)))) = .ok ⟨T, I, P⟩ := by
  have hT64 : T.length = 64 := by simpa [PublicKeySize] using hT
  have hI256 : I.length ≤ 256 := by simpa [MaxMsgIDLen] using hI
  have htot65536 : 66 + I.length + P.length ≤ 65536 := by
    simp only [PublicKeySize, MaxMessageSize] at htot
    omega
  have hcI : (256 < I.length) = False := eq_false (by omega)
  have hctot : (65536 < 66 + I.length + P.length) = False := eq_false (by omega)
  have henc : ClientMessage.encode ⟨T, I, P⟩ =
      .ok (beBytes 4 (66 + I.length + P.length) ++
        (T ++ (beBytes 2 I.length ++ (I ++ P)))) := by
    simp [ClientMessage.encode, PublicKeySize, MaxMsgIDLen, MaxMessageSize,
      Nat.reduceMul, Nat.reduceAdd, hT64, hcI, hctot]
  have htk4 : List.take 4 (beBytes 4 (66 + I.length + P.length) ++
      (T ++ (beBytes 2 I.length ++ (I ++ P)))) = beBytes 4 (66 + I.length + P.length) :=
    List.take_left' (beBytes_length 4 _)
  have hdp4 : List.drop 4 (beBytes 4 (66 + I.length + P.length) ++
      (T ++ (beBytes 2 I.length ++ (I ++ P)))) = T ++ (beBytes 2 I.length ++ (I ++ P)) :=
    List.drop_left' (beBytes_length 4 _)
  have hbe4 : beVal (beBytes 4 (66 + I.length + P.length)) = 66 + I.length + P.length :=
    beVal_beBytes 4 _ (by
      rw [show (256 : Nat) ^ 4 = 4294967296 by norm_num]
      omega)
  have hc1 : ((beBytes 4 (66 + I.length + P.length) ++
      (T ++ (beBytes 2 I.length ++ (I ++ P)))).length < 4) = False :=
    eq_false (by simp only [List.length_append, beBytes_length]; omega)
  have hXlen : (T ++ (beBytes 2 I.length ++ (I ++ P))).length =
      66 + I.length + P.length := by
    simp only [List.length_append, beBytes_length, hT64]
    omega
  have hc4 : (66 + I.length + P.length < 66) = False := eq_false (by omega)
  have hbufX : List.take (66 + I.length + P.length)
      (T ++ (beBytes 2 I.length ++ (I ++ P))) = T ++ (beBytes 2 I.length ++ (I ++ P)) :=
    List.take_of_length_le (le_of_eq hXlen)
  have htkT : List.take 64 (T ++ (beBytes 2 I.length ++ (I ++ P))) = T :=
    List.take_left' hT64
  have hdpT : List.drop 64 (T ++ (beBytes 2 I.length ++ (I ++ P))) =
      beBytes 2 I.length ++ (I ++ P) := List.drop_left' hT64
  have htk2 : List.take 2 (beBytes 2 I.length ++ (I ++ P)) = beBytes 2 I.length :=
    List.take_left' (beBytes_length 2 _)
  have hdp2 : List.drop 2 (beBytes 2 I.length ++ (I ++ P)) = I ++ P :=
    List.drop_left' (beBytes_length 2 _)
  have hbe2 : beVal (beBytes 2 I.length) = I.length :=
    beVal_beBytes 2 _ (by
      rw [show (256 : Nat) ^ 2 = 65536 by norm_num]
      omega)
  have hc5 : ((I ++ P).length < I.length) = False :=
    eq_false (by simp only [List.length_append]; omega)
  have htkI : List.take I.length (I ++ P) = I := List.take_left' rfl
  have hdpI : List.drop I.length (I ++ P) = P := List.drop_left' rfl
  refine ⟨henc, ?_⟩
  simp [DecodeClientMessage, PublicKeySize, MaxMsgIDLen, MaxMessageSize,
    Nat.reduceMul, Nat.reduceAdd, htk4, hdp4, hbe4, hc1, hXlen, hc4, hbufX,
    htkT, hdpT, htk2, hdp2, hbe2, hc5, htkI, hdpI, hctot]
  simp only [beBytes_length]
  omega

/-- C6 counterexample: an AuthResult with Status = OK and a nonempty ErrorMsg
is a valid field assignment (ErrorMsg well under 1024 bytes), encodes without
error, but decodes to an AuthResult with an empty ErrorMsg — the round trip is
not the identity on it. -/
theorem authResult_roundtrip_counterexample :
    DecodeAuthResult ((AuthResult.encode ⟨AuthStatusOK, [120]⟩).drop 1) =
      Except.ok ⟨AuthStatusOK, []⟩ ∧
    (⟨AuthStatusOK, []⟩ : AuthResult) ≠ ⟨AuthStatusOK, [120]⟩ := by
  constructor
  · rfl
  · decide

/-- C6 amended: decoding inverts encoding for each of the six frames on all
valid field values, where additionally an AuthResult with Status = OK must
carry an empty ErrorMsg (Encode drops the message for OK results). Handshake
frames are decoded after their type byte; the data frames carry no type
byte. -/
theorem encode_decode_roundtrip :
    (∀ pk : List Nat, pk.length = PublicKeySize →
      DecodeClientHello ((ClientHello.encode ⟨pk⟩).drop 1) = .ok ⟨pk⟩) ∧
    (∀ (ch sid : List Nat) (ts : Nat), ch.length = ChallengeSize →
      sid.length = ServerIDSize → ts < 2 ^ 64 →
      DecodeServerChallenge ((ServerChallenge.encode ⟨ch, ts, sid⟩).drop 1) =
        .ok ⟨ch, ts, sid⟩) ∧
    (∀ sig : List Nat, sig.length = SignatureSize →
      DecodeClientResponse ((ClientResponse.encode ⟨sig⟩).drop 1) = .ok ⟨sig⟩) ∧
    (∀ (s : Nat) (msg : List Nat), msg.length ≤ MaxErrorMsgLen →
      (s = AuthStatusOK → msg = []) →
      DecodeAuthResult ((AuthResult.encode ⟨s, msg⟩).drop 1) = .ok ⟨s, msg⟩) ∧
    (∀ T I P : List Nat, T.length = PublicKeySize * 2 → I.length ≤ MaxMsgIDLen →
      PublicKeySize * 2 + 2 + I.length + P.length ≤ MaxMessageSize →
      ∀ out, ClientMessage.encode ⟨T, I, P⟩ = .ok out →
        DecodeClientMessage out = .ok ⟨T, I, P⟩) ∧
    (∀ d : List Nat, d.length ≤ MaxMessageSize →
      ∀ out, ServerMessage.encode ⟨d⟩ = .ok out → DecodeServerMessage out = .ok ⟨d⟩) := by
  refine ⟨roundtrip_clientHello, ?_, roundtrip_clientResponse, ?_, ?_, ?_⟩
  · intro ch sid ts hch hsid hts
    exact roundtrip_serverChallenge ch sid ts hch hsid hts
  · intro s msg hlen hok
    rw [authResult_decode_encode s msg]
    by_cases hs : s = AuthStatusOK
    · simp [hs, hok hs]
    · simp [hs, List.take_of_length_le hlen]
  · intro T I P hT hI htot out henc
    have h := roundtrip_clientMessage T I P hT hI htot
    rw [h.1] at henc
    have hout := Except.ok.inj henc
    rw [← hout]
    exact h.2
  · intro d hd out henc
    have h := roundtrip_serverMessage d hd
    rw [h.1] at henc
    have hout := Except.ok.inj henc
    rw [← hout]
    exact h.2

/-- C6 witness: the round trips at concrete frames. -/
theorem encode_decode_roundtrip_witness :
    DecodeClientHello ((ClientHello.encode ⟨List.replicate 32 1⟩).drop 1) =
      .ok ⟨List.replicate 32 1⟩ ∧
    DecodeServerChallenge ((ServerChallenge.encode
        ⟨List.replicate 32 2, 1706000000, List.replicate 32 3⟩).drop 1) =
      .ok ⟨List.replicate 32 2, 1706000000, List.replicate 32 3⟩ ∧
    DecodeClientResponse ((ClientResponse.encode ⟨List.replicate 64 4⟩).drop 1) =
      .ok ⟨List.replicate 64 4⟩ ∧
    DecodeAuthResult ((AuthResult.encode ⟨AuthStatusInvalidSig, [101, 114, 114]⟩).drop 1) =
      .ok ⟨AuthStatusInvalidSig, [101, 114, 114]⟩ ∧
    DecodeClientMessage (beBytes 4 68 ++ (List.replicate 64 48 ++
        (beBytes 2 1 ++ ([109] ++ [112])))) = .ok ⟨List.replicate 64 48, [109], [112]⟩ ∧
    DecodeServerMessage (beBytes 4 3 ++ [10, 20, 30]) = .ok ⟨[10, 20, 30]⟩ :=
  ⟨encode_decode_roundtrip.1 (List.replicate 32 1) (by simp [PublicKeySize]),
   encode_decode_roundtrip.2.1 (List.replicate 32 2) (List.replicate 32 3) 1706000000
     (by simp [ChallengeSize]) (by simp [ServerIDSize]) (by norm_num),
   encode_decode_roundtrip.2.2.1 (List.replicate 64 4) (by simp [SignatureSize]),
   encode_decode_roundtrip.2.2.2.1 AuthStatusInvalidSig [101, 114, 114]
     (by simp [MaxErrorMsgLen]) (by simp [AuthStatusInvalidSig, AuthStatusOK]),
   encode_decode_roundtrip.2.2.2.2.1 (List.replicate 64 48) [109] [112]
     (by simp [PublicKeySize]) (by simp [MaxMsgIDLen])
     (by simp [PublicKeySize, MaxMessageSize])
     (beBytes 4 68 ++ (List.replicate 64 48 ++ (beBytes 2 1 ++ ([109] ++ [112])))) rfl,
   encode_decode_roundtrip.2.2.2.2.2 [10, 20, 30] (by simp [MaxMessageSize])
     (beBytes 4 3 ++ [10, 20, 30]) rfl⟩

/-- C10: for Status ≠ OK, Encode writes ErrLen = min(len(ErrorMsg), 1024) and
only the first ErrLen bytes of ErrorMsg (silently truncating); and
DecodeAuthResult succeeds on the output of Encode for every AuthResult value,
including oversize messages. -/
theorem authResult_encode_truncates (s : Nat) (msg : List Nat) :
    (s ≠ AuthStatusOK →
      AuthResult.encode ⟨s, msg⟩ =
        [TypeAuthResult] ++ ([s] ++ (beBytes 2 (min msg.length MaxErrorMsgLen) ++
          msg.take MaxErrorMsgLen))) ∧
    DecodeAuthResult ((AuthResult.encode ⟨s, msg⟩).drop 1) =
      .ok ⟨s, if s = AuthStatusOK then [] else msg.take MaxErrorMsgLen⟩ := by
  refine ⟨?_, authResult_decode_encode s msg⟩
  intro hs
  by_cases hlen : msg.length > MaxErrorMsgLen
  · have hmin : min msg.length MaxErrorMsgLen = MaxErrorMsgLen := by omega
    have htl : (msg.take MaxErrorMsgLen).length = MaxErrorMsgLen := by
      rw [List.length_take]
      omega
    simp [AuthResult.encode, hs, hlen, hmin, htl]
  · have hmin : min msg.length MaxErrorMsgLen = msg.length := by omega
    have htk : List.take MaxErrorMsgLen msg = msg :=
      List.take_of_length_le (by omega)
    simp [AuthResult.encode, hs, hlen, hmin, htk]

/-- C10 witness: a Replay result with a 1500-byte message is truncated to the
first 1024 bytes and still decodes. -/
theorem authResult_encode_truncates_witness :
    AuthResult.encode ⟨AuthStatusReplay, List.replicate 1500 97⟩ =
      [TypeAuthResult] ++ ([AuthStatusReplay] ++
        (beBytes 2 (min (List.replicate 1500 97).length MaxErrorMsgLen) ++
          (List.replicate 1500 97).take MaxErrorMsgLen)) ∧
    DecodeAuthResult ((AuthResult.encode ⟨AuthStatusReplay, List.replicate 1500 97⟩).drop 1) =
      .ok ⟨AuthStatusReplay, if AuthStatusReplay = AuthStatusOK then []
        else (List.replicate 1500 97).take MaxErrorMsgLen⟩ :=
  ⟨(authResult_encode_truncates AuthStatusReplay (List.replicate 1500 97)).1 (by decide),
   (authResult_encode_truncates AuthStatusReplay (List.replicate 1500 97)).2⟩

/-! ### ServerID derivation (pkg/router/router.go, Serve) -/

/-- `Serve`'s derivation of the 32-byte handshake ServerID from the configured
`server.server_id` string: an error if the string exceeds 32 bytes, otherwise
the bytes copied into a zeroed 32-byte array (zero-padding). -/
def deriveServerID (serverIDBytes : List Nat) : Except String (List Nat) :=
  if serverIDBytes.length > ServerIDSize then .error "server_id too long"
  else .ok (serverIDBytes ++ List.replicate (ServerIDSize - serverIDBytes.length) 0)

/-- C7 counterexample: a 33-byte server id makes startup fail with an error;
it is not truncated to 32 bytes as the claim states. -/
theorem deriveServerID_oversize_counterexample :
    deriveServerID (List.replicate 33 97) = .error "server_id too long" ∧
    (deriveServerID (List.replicate 33 97)).isOk = false := by
  constructor
  · rfl
  · rfl

/-- C7 amended: a configured server id of at most 32 bytes is zero-padded to
exactly 32 bytes (the first len(s) bytes are the string, the rest zero);
a server id longer than 32 bytes makes startup FAIL with "server_id too
long" — it is not truncated. -/
theorem deriveServerID_spec (s : List Nat) :
    (s.length ≤ ServerIDSize →
      deriveServerID s = .ok (s ++ List.replicate (ServerIDSize - s.length) 0) ∧
      (s ++ List.replicate (ServerIDSize - s.length) 0).length = ServerIDSize ∧
      (s ++ List.replicate (ServerIDSize - s.length) 0).take s.length = s) ∧
    (s.length > ServerIDSize → deriveServerID s = .error "server_id too long") := by
  constructor
  · intro h
    refine ⟨?_, ?_, ?_⟩
    · rw [deriveServerID, if_neg (by omega)]
    · simp only [List.length_append, List.length_replicate]
      omega
    · exact List.take_left' rfl
  · intro h
    rw [deriveServerID, if_pos h]

/-- C7 witness: the 5-byte id "aaaaa" is padded with 27 zero bytes. -/
theorem deriveServerID_spec_witness :
    deriveServerID (List.replicate 5 97) =
      .ok (List.replicate 5 97 ++
        List.replicate (ServerIDSize - (List.replicate 5 97).length) 0) ∧
    (List.replicate 5 97 ++
      List.replicate (ServerIDSize - (List.replicate 5 97).length) 0).length =
        ServerIDSize ∧
    (List.replicate 5 97 ++
      List.replicate (ServerIDSize - (List.replicate 5 97).length) 0).take
        (List.replicate 5 97).length = List.replicate 5 97 :=
  (deriveServerID_spec (List.replicate 5 97)).1 (by simp [ServerIDSize])

/-! ### Peer.Close (internal broker Peer, close-once semantics) -/

/-- The observable actions of `Peer.Close`. -/
inductive CloseAction where
  | closeChannel
  | unsubscribe
  | connClose
deriving DecidableEq, Repr

/-- Peer close state: whether the `sync.Once` has fired, and the trace of
actions performed so far. -/
structure PeerState where
  onceDone : Bool
  trace : List CloseAction
deriving DecidableEq, Repr

/-- `Peer.Close`: under `closeOnce.Do`, the first call closes the close
channel, unsubscribes the subscription, then closes the connection, in that
order; every later call is a no-op. -/
def peerClose (s : PeerState) : PeerState :=
  if s.onceDone then s
  else ⟨true, s.trace ++ [.closeChannel, .unsubscribe, .connClose]⟩

/-- N sequential calls of `Peer.Close`. -/
def peerCloseN : Nat → PeerState → PeerState
  | 0, s => s
  | n + 1, s => peerCloseN n (peerClose s)

theorem peerCloseN_of_done (n : Nat) (s : PeerState) (h : s.onceDone = true) :
    peerCloseN n s = s := by
  induction n with
  | zero => rfl
  | succ m ih =>
    rw [peerCloseN, peerClose, if_pos h]
    exact ih

/-- C8: `Peer.Close` is idempotent: for every starting state and every N ≥ 1,
N calls equal one call; and for a fresh peer, any N ≥ 1 calls perform each of
close-channel, unsubscribe and connection-close exactly once, with
unsubscribe strictly before the connection close. -/
theorem peerClose_idempotent (n : Nat) (h : 1 ≤ n) :
    (∀ s : PeerState, peerCloseN n s = peerClose s) ∧
    (peerCloseN n ⟨false, []⟩).trace =
      [.closeChannel, .unsubscribe, .connClose] ∧
    (peerCloseN n ⟨false, []⟩).trace.count CloseAction.closeChannel = 1 ∧
    (peerCloseN n ⟨false, []⟩).trace.count CloseAction.unsubscribe = 1 ∧
    (peerCloseN n ⟨false, []⟩).trace.count CloseAction.connClose = 1 ∧
    (peerCloseN n ⟨false, []⟩).trace.indexOf CloseAction.unsubscribe <
      (peerCloseN n ⟨false, []⟩).trace.indexOf CloseAction.connClose := by
  obtain ⟨m, rfl⟩ : ∃ m, n = m + 1 := ⟨n - 1, by omega⟩
  have hstep : ∀ s : PeerState, peerCloseN (m + 1) s = peerClose s := by
    intro s
    rw [peerCloseN]
    by_cases hs : s.onceDone = true
    · rw [peerClose, if_pos hs, peerCloseN_of_done m s hs]
    · have hs' : s.onceDone = false := by
        cases hdone : s.onceDone
        · rfl
        · exact absurd hdone hs
      rw [peerClose, if_neg (by rw [hs']; exact Bool.false_ne_true)]
      exact peerCloseN_of_done m _ rfl
  refine ⟨hstep, ?_⟩
  rw [hstep ⟨false, []⟩]
  refine ⟨rfl, ?_, ?_, ?_, ?_⟩ <;> decide

/-- C8 witness: three calls on a fresh peer behave as one. -/
theorem peerClose_idempotent_witness :
    peerCloseN 3 ⟨false, []⟩ = peerClose ⟨false, []⟩ ∧
    (peerCloseN 3 ⟨false, []⟩).trace =
      [.closeChannel, .unsubscribe, .connClose] :=
  ⟨(peerClose_idempotent 3 (by norm_num)).1 ⟨false, []⟩,
   (peerClose_idempotent 3 (by norm_num)).2.1⟩

/-! ### NATS subjects (pkg/broker subjectForClient / Publish / newPeer) -/

/-- ASCII bytes of "goro.msg.". -/
def goroMsgPrefix : List Nat := [103, 111, 114, 111, 46, 109, 115, 103, 46]

/-- `subjectForClient`: "goro.msg." + pubKeyHex. -/
def subjectForClient (pubKeyHex : List Nat) : List Nat := goroMsgPrefix ++ pubKeyHex

/-- `Publisher.Publish` forms its subject from the To string verbatim. -/
def publishSubject (toPubKeyHex : List Nat) : List Nat := subjectForClient toPubKeyHex

/-- Lowercase digit table of `hex.EncodeToString`: "0123456789abcdef". -/
def hexDigits : List Nat :=
  [48, 49, 50, 51, 52, 53, 54, 55, 56, 57, 97, 98, 99, 100, 101, 102]

/-- `hex.EncodeToString`: two lowercase hex digit bytes per input byte. -/
def hexEncode (bs : List Nat) : List Nat :=
  bs.flatMap fun b => [hexDigits.getD (b / 16) 0, hexDigits.getD (b % 16) 0]

/-- `newPeer` subscribes to the subject of `hex.EncodeToString(id)`. -/
def peerSubscribeSubject (id : List Nat) : List Nat := subjectForClient (hexEncode id)

theorem hexDigits_getD_not_upper (i : Nat) :
    hexDigits.getD i 0 < 65 ∨ 70 < hexDigits.getD i 0 := by
  by_cases h : i < 16
  · interval_cases i <;> decide
  · rw [List.getD_eq_default _ _ (by simp [hexDigits]; omega)]
    left
    norm_num

theorem hexEncode_not_upper (bs : List Nat) (c : Nat) (hc : c ∈ hexEncode bs) :
    c < 65 ∨ 70 < c := by
  simp only [hexEncode, List.mem_flatMap] at hc
  obtain ⟨b, -, hcb⟩ := hc
  simp only [List.mem_cons, List.mem_singleton] at hcb
  rcases hcb with rfl | rfl | h
  · exact hexDigits_getD_not_upper _
  · exact hexDigits_getD_not_upper _
  · exact absurd h (List.not_mem_nil c)

/-- C9: a To string that passes isValidHexPubKey but contains an uppercase
letter is published verbatim to "goro.msg." + To, while every peer subscribes
to "goro.msg." + hex.EncodeToString(key), whose digits are lowercase; so the
publish subject differs from the subscription subject of every 32-byte key —
the message is published to a subject no peer ever subscribes to. -/
theorem uppercase_to_unroutable (toHex : List Nat)
    (_hvalid : isValidHexPubKey toHex = true)
    (hupper : ∃ c ∈ toHex, 65 ≤ c ∧ c ≤ 70) :
    ∀ key : List Nat, publishSubject toHex ≠ peerSubscribeSubject key := by
  intro key heq
  have hsuffix : toHex = hexEncode key :=
    List.append_cancel_left heq
  obtain ⟨c, hc, h65, h70⟩ := hupper
  rw [hsuffix] at hc
  rcases hexEncode_not_upper key c hc with h | h
  · omega
  · omega

set_option maxRecDepth 2000 in
/-- C9 witness: the To string of 63 zeros and one uppercase A is valid and
its publish subject differs from the subscription subject of the all-zero
key (and the theorem gives this for every key). -/
theorem uppercase_to_unroutable_witness :
    isValidHexPubKey (List.replicate 63 48 ++ [65]) = true ∧
    publishSubject (List.replicate 63 48 ++ [65]) ≠
      peerSubscribeSubject (List.replicate 32 0) :=
  ⟨by decide,
   uppercase_to_unroutable (List.replicate 63 48 ++ [65]) (by decide)
     ⟨65, by simp, by norm_num⟩ (List.replicate 32 0)⟩

end Sprut
